import Mathlib

/-!
Verification of the solver.inp → svFSI.xml converter
(`Code/Scripts/solver_inp_to_xml.py`).

The script has two components: a recursive parser (`DataNode.parse`) that
builds a tree of `DataNode` objects from input lines, and a serializer
(`DataNode.format_for_xml`) that renders the tree as XML lines.

Shallow embedding notes.
* Python strings are modelled as Lean `String`; every string operation the
  script uses (`strip`, `split(sep, 1)`, `rsplit(sep)`, `split(sep)`,
  `replace`, `in`, `startswith`, indexing the last character) is implemented
  below by structural recursion over the character list `String.data`, with
  CPython semantics, so that the kernel can evaluate everything.
* Python exceptions (the `ValueError` raised by tuple unpacking of a split
  result of the wrong length) are modelled with `Except PyErr`; the error
  payload is exactly the message CPython attaches to the exception.
* The mutable per-node counter `lines_parsed`, which
  `update_lines_parsed` increments on the node and recursively on every
  ancestor, is modelled by explicit state threading: `lp` is the frame's own
  `lines_parsed`, and `ups` counts the `update_lines_parsed` events of the
  frame and its descendants, which is precisely the amount by which the
  recursive call increments every ancestor's counter; the caller adds the
  returned `ups` of the child frame to its own `lp`.
* Literal brace characters are written with `\x7b` and `\x7d` escapes.
-/

namespace SolverInp

/-- The opening brace character. -/
def obrace : Char := '\x7b'

/-- The closing brace character. -/
def cbrace : Char := '\x7d'

/-- CPython `str.strip()` whitespace (ASCII part). -/
def isPySpace (c : Char) : Bool :=
  c == ' ' || c == '\t' || c == '\n' || c == '\r' || c == '\x0b' || c == '\x0c'

/-- Python `line.strip()` on the character list. -/
def pyStrip (l : List Char) : List Char :=
  ((l.dropWhile isPySpace).reverse.dropWhile isPySpace).reverse

/-- Python `line.startswith('#')`. -/
def startsHash : List Char → Bool
  | [] => false
  | c :: _ => c == '#'

/-- Python `s.split(': ', 1)`: split at the leftmost occurrence of
colon-space; `none` when there is no occurrence (where the script's tuple
unpacking would raise `ValueError`). -/
def splitColonSpace : List Char → Option (List Char × List Char)
  | [] => none
  | [_] => none
  | c1 :: c2 :: rest =>
    if c1 == ':' && c2 == ' ' then some ([], rest)
    else
      match splitColonSpace (c2 :: rest) with
      | some (a, b) => some (c1 :: a, b)
      | none => none

/-- Python `s.rsplit(' ')` / `s.split(' ')` with no maxsplit: split at every
space character. -/
def splitSpaces : List Char → List (List Char)
  | [] => [[]]
  | c :: rest =>
    if c == ' ' then [] :: splitSpaces rest
    else
      match splitSpaces rest with
      | a :: as => (c :: a) :: as
      | [] => [[c]]

/-- Python `s.split(' \x7b')` with no maxsplit: split at every
(non-overlapping, leftmost-first) occurrence of space-open-brace. -/
def splitSpaceBrace : List Char → List (List Char)
  | [] => [[]]
  | [c] => [[c]]
  | c1 :: c2 :: rest =>
    if c1 == ' ' && c2 == obrace then [] :: splitSpaceBrace rest
    else
      match splitSpaceBrace (c2 :: rest) with
      | a :: as => (c1 :: a) :: as
      | [] => [[c1]]

/-- Python `'\x7b' in line[-1]` (the script only evaluates it on a non-empty
line). -/
def lastIsOpenBrace (l : List Char) : Bool :=
  match l.getLast? with
  | some c => c == obrace
  | none => false

/-- The exception the script can raise; the payload is the CPython message. -/
inductive PyErr where
  | valueError (msg : String)
deriving DecidableEq, Repr

/-- CPython message for unpacking a 1-element split result into two names. -/
def errNotEnough : PyErr :=
  .valueError "not enough values to unpack (expected 2, got 1)"

/-- CPython message for unpacking a longer split result into two names. -/
def errTooMany : PyErr :=
  .valueError "too many values to unpack (expected 2)"

/-- The tree node built by the script (`DataNode`): key, value, level,
`is_root`, ordered children.  The fields `parent`, `lines_parsed` and
`xmllist` of the Python class are parsing/serialization state and are
modelled by the explicit state of `parseLines` and `formatForXml`. -/
inductive DataNode where
  | mk (key : String) (value : String) (level : Nat) (isRoot : Bool)
      (children : List DataNode) : DataNode
deriving Repr

/-- Key of a node. -/
def DataNode.key : DataNode → String
  | .mk k _ _ _ _ => k

/-- Value of a node. -/
def DataNode.value : DataNode → String
  | .mk _ v _ _ _ => v

/-- Level of a node. -/
def DataNode.level : DataNode → Nat
  | .mk _ _ lvl _ _ => lvl

/-- Root flag of a node. -/
def DataNode.isRoot : DataNode → Bool
  | .mk _ _ _ r _ => r

/-- Children of a node. -/
def DataNode.children : DataNode → List DataNode
  | .mk _ _ _ _ cs => cs

/-- Python `len(node.children) > 0`. -/
def hasChildren (n : DataNode) : Bool :=
  0 < n.children.length

/-- Key normalization of `DataNode.__init__`: the hard-coded
`LS type → LS` rename is checked first, otherwise every space becomes an
underscore. -/
def normKey (k : String) : String :=
  if k = "LS type" then "LS"
  else String.mk (k.data.map (fun c => if c == ' ' then '_' else c))

/-- Value normalization of `DataNode.__init__`:
`true`/`t` become `1`, `false`/`f` become `0`, anything else is unchanged. -/
def normValue (v : String) : String :=
  if v = "true" ∨ v = "t" then "1"
  else if v = "false" ∨ v = "f" then "0"
  else v

/-- Node construction through `DataNode.__init__` (non-root), from the raw
character lists the parser extracted. -/
def mkNode (k v : List Char) (lvl : Nat) (cs : List DataNode) : DataNode :=
  .mk (normKey (String.mk k)) (normValue (String.mk v)) lvl false cs

/-- The blank-or-comment test of the parse loop:
`line.startswith('#') or len(line) == 0` on the stripped line. -/
def skipLine (l : String) : Bool :=
  startsHash (pyStrip l.data) || (pyStrip l.data).isEmpty

/-- What the parse loop does with one fresh (not yet consumed, not
blank/comment) line.  This is the pure branch logic of `DataNode.parse`,
shared verbatim between the faithful parser `parseLines` and the
explicit-cursor parser `cursorParse`. -/
inductive LineAct where
  | fail (e : PyErr)
  | blockOpen (k v : List Char)
  | inlinePair (nk nv sk sv : List Char)
  | blockClose
  | leafKV (k v : List Char)
deriving Repr

/-- Branch selection and string surgery of `DataNode.parse` for one stripped
line, mirroring the source line by line:
opening brace present and last character → multiline nested data
(`split(': ', 1)` then `rsplit(' ')`); opening brace present elsewhere →
inline nested data (`split(' \x7b')`, then `split(': ', 1)` twice and
`replace('\x7d', '')`); closing brace → leave the recursion level;
otherwise a leaf (`split(': ', 1)`). -/
def classifyLine (l : String) : LineAct :=
  let line := pyStrip l.data
  if line.contains obrace then
    if lastIsOpenBrace line then
      match splitColonSpace line with
      | none => .fail errNotEnough
      | some (k, vb) =>
        match splitSpaces vb with
        | [v, _] => .blockOpen k v
        | [_] => .fail errNotEnough
        | _ => .fail errTooMany
    else
      match splitSpaceBrace line with
      | [np, sp] =>
        match splitColonSpace np with
        | none => .fail errNotEnough
        | some (nk, nv) =>
          match splitColonSpace sp with
          | none => .fail errNotEnough
          | some (sk, sv) =>
            .inlinePair nk nv sk (sv.filter (fun c => !(c == cbrace)))
      | [_] => .fail errNotEnough
      | [] => .fail errNotEnough
      | _ => .fail errTooMany
  else if line.contains cbrace then .blockClose
  else
    match splitColonSpace line with
    | none => .fail errNotEnough
    | some (k, v) => .leafKV k v

/-- Faithful embedding of `DataNode.parse`.  Arguments: the node's `level`,
the remaining line list of the frame, the loop index `idx`, the node's own
`lines_parsed` counter `lp`, the number `ups` of `update_lines_parsed`
events already produced by this frame and its descendants (each such event
also increments every ancestor's counter, so `ups` is returned to the
caller, who adds it to its own `lp`), and the accumulated `children`.
The blank/comment branch increments only the frame's own counter, exactly
as in the source; a consumed content line goes through
`update_lines_parsed` and therefore increments both `lp` and `ups`;
after the recursive call for a multiline block, the child's returned `ups`
is added to the parent's `lp` and `ups`, which is the effect of the
child's `update_lines_parsed` calls reaching the parent. -/
def parseLines (level : Nat) :
    List String → Nat → Nat → Nat → List DataNode →
    Except PyErr (List DataNode × Nat)
  | [], _, _, ups, acc => .ok (acc, ups)
  | l :: rest, idx, lp, ups, acc =>
    if skipLine l then
      parseLines level rest (idx + 1) (lp + 1) ups acc
    else if lp ≤ idx then
      match classifyLine l with
      | .fail e => .error e
      | .blockOpen k v =>
        match parseLines (level + 1) rest 0 0 0 [] with
        | .error e => .error e
        | .ok (cc, cups) =>
          parseLines level rest (idx + 1) (lp + 1 + cups) (ups + 1 + cups)
            (acc ++ [mkNode k v (level + 1) cc])
      | .inlinePair nk nv sk sv =>
        parseLines level rest (idx + 1) (lp + 1) (ups + 1)
          (acc ++ [mkNode nk nv (level + 1) [mkNode sk sv (level + 2) []]])
      | .blockClose => .ok (acc, ups + 1)
      | .leafKV k v =>
        parseLines level rest (idx + 1) (lp + 1) (ups + 1)
          (acc ++ [mkNode k v (level + 1) []])
    else
      parseLines level rest (idx + 1) lp ups acc

/-- `SolverInpConverter.parse_inp_file`: create the root
`DataNode('svFSIFile', '0.1', is_root=True)` and run `parse` on the whole
line list. -/
def parseRoot (lines : List String) : Except PyErr DataNode :=
  match parseLines 0 lines 0 0 0 [] with
  | .error e => .error e
  | .ok (cs, _) => .ok (.mk (normKey "svFSIFile") (normValue "0.1") 0 true cs)

/-- Explicit-cursor parser, the contract the specification describes for the
cursor discipline (an index-passing design: each call consumes a prefix of
its line list and returns how many lines it consumed, and the caller
resumes at exactly the first line after them).  Identical to
`parseLines` in its per-line behaviour (`skipLine`, `classifyLine`,
`mkNode`), differing only in the cursor bookkeeping.  The first argument is
fuel; any fuel at least the length of the line list is enough, and the
theorems instantiate it with the length. -/
def cursorParse : Nat → Nat → List String → Except PyErr (List DataNode × Nat)
  | _, _, [] => .ok ([], 0)
  | 0, _, _ :: _ => .ok ([], 0)
  | fuel + 1, level, l :: rest =>
    if skipLine l then
      match cursorParse fuel level rest with
      | .error e => .error e
      | .ok (cs, n) => .ok (cs, n + 1)
    else
      match classifyLine l with
      | .fail e => .error e
      | .blockOpen k v =>
        match cursorParse fuel (level + 1) rest with
        | .error e => .error e
        | .ok (cc, n1) =>
          match cursorParse fuel level (rest.drop n1) with
          | .error e => .error e
          | .ok (cs, n2) => .ok (mkNode k v (level + 1) cc :: cs, 1 + n1 + n2)
      | .inlinePair nk nv sk sv =>
        match cursorParse fuel level rest with
        | .error e => .error e
        | .ok (cs, n) =>
          .ok (mkNode nk nv (level + 1) [mkNode sk sv (level + 2) []] :: cs,
            n + 1)
      | .blockClose => .ok ([], 1)
      | .leafKV k v =>
        match cursorParse fuel level rest with
        | .error e => .error e
        | .ok (cs, n) => .ok (mkNode k v (level + 1) [] :: cs, n + 1)

/-- Number of content lines (lines that are not blank/comment) in a list;
exactly the lines that trigger `update_lines_parsed`. -/
def countContent (ls : List String) : Nat :=
  ls.countP (fun l => !skipLine l)

/- ---------------------------------------------------------------------
Serializer (`DataNode.format_for_xml`).
--------------------------------------------------------------------- -/

/-- The fixed `key_to_attr` table of `DataNode.__init__`. -/
def keyToAttrList : List (String × String) :=
  [("svFSIFile", "version"),
   ("Add_face", "name"),
   ("Add_mesh", "name"),
   ("Add_projection", "name"),
   ("Add_equation", "type"),
   ("Domain", "id"),
   ("Viscosity", "model"),
   ("Constitutive_model", "type"),
   ("LS", "type"),
   ("Linear_algebra", "type"),
   ("Output", "type"),
   ("Add_BC", "name")]

/-- Membership/lookup in the attribute table
(`self.key in self.key_to_attr.keys()` / `self.key_to_attr[self.key]`). -/
def keyToAttr (k : String) : Option String :=
  keyToAttrList.lookup k

/-- Python `'\t' * n` (the script computes `level - 1`, which is already
truncated at zero for the root because Python's `'\t' * (-1)` is empty and
Lean's Nat subtraction is likewise truncated). -/
def tabs (n : Nat) : String :=
  String.mk (List.replicate n '\t')

/-- Opening tag of a node with children: attribute form when the key is in
the table, plain form otherwise. -/
def openTagFor (k v : String) (lvl : Nat) : String :=
  match keyToAttr k with
  | some a => tabs (lvl - 1) ++ "<" ++ k ++ " " ++ a ++ "=\"" ++ v ++ "\" >\n"
  | none => tabs (lvl - 1) ++ "<" ++ k ++ ">\n"

/-- Closing tag of a node with children. -/
def closeTagFor (k : String) (lvl : Nat) : String :=
  tabs (lvl - 1) ++ "</" ++ k ++ ">\n"

/-- Inline tag of a childless node (the `else` branch: the node's `xmllist`
becomes this single string, which the parent appends as one element). -/
def inlineTagFor (k v : String) (lvl : Nat) : String :=
  tabs (lvl - 1) ++ "<" ++ k ++ "> " ++ v ++ " </" ++ k ++ ">\n"

/-- The child loop of `format_for_xml`, applied to the pair
(child has children, child's rendered lines) for each child; `isRoot` is
the `self.is_root` of the node whose children these are and `adding` is the
loop's `adding_gen_sim_params` flag: at the first child with children (when
the flag is still set) the general-simulation-parameters wrapper is closed
and the flag cleared. -/
def emitChildren (isRoot : Bool) : Bool → List (Bool × List String) → List String
  | _, [] => []
  | adding, (hasKids, xml) :: rest =>
    if isRoot && hasKids && adding then
      "</GeneralSimulationParameters>\n" :: (xml ++ emitChildren isRoot false rest)
    else
      xml ++ emitChildren isRoot adding rest

/-- Faithful embedding of `DataNode.format_for_xml`, producing the node's
flattened `xmllist` (the parent extends a list `xmllist` and appends a
string one, so the net result is the flat line list).  The first argument
is recursion fuel; any fuel larger than the tree height is enough, and
`convert` supplies one that always is for a parsed tree. -/
def formatForXml : Nat → DataNode → List String
  | 0, _ => []
  | fuel + 1, .mk key value level isRoot children =>
    if 0 < children.length then
      (if level = 1 then ["\n"] else [])
      ++ [openTagFor key value level]
      ++ (if isRoot then ["\n", "<GeneralSimulationParameters>\n"] else [])
      ++ emitChildren isRoot true
          (children.map (fun c => (hasChildren c, formatForXml fuel c)))
      ++ [closeTagFor key level]
    else
      [inlineTagFor key value level]

/-- `SolverInpConverter.convert_to_xml` composed with parsing: the XML
declaration header followed by the root's rendered lines.  A parsed tree
gains at most two levels per consumed input line (one for a block or leaf,
two for an inline pair), so `2 * lines.length + 2` strictly exceeds its
height and the fuel never runs out. -/
def convert (lines : List String) : Except PyErr (List String) :=
  match parseRoot lines with
  | .error e => .error e
  | .ok root =>
    .ok ("<?xml version=\"1.0\" encoding=\"UTF-8\"?>\n"
      :: formatForXml (2 * lines.length + 2) root)

/-- The full output of the converter on the single leaf line
`LS type: GMRES`. -/
def lsLeafOut : List String :=
  ["<?xml version=\"1.0\" encoding=\"UTF-8\"?>\n",
   "<svFSIFile version=\"0.1\" >\n", "\n",
   "<GeneralSimulationParameters>\n",
   "<LS> GMRES </LS>\n",
   "</svFSIFile>\n"]

/-- The full output of the converter on the single leaf line
`Density: 1.0`. -/
def densityLeafOut : List String :=
  ["<?xml version=\"1.0\" encoding=\"UTF-8\"?>\n",
   "<svFSIFile version=\"0.1\" >\n", "\n",
   "<GeneralSimulationParameters>\n",
   "<Density> 1.0 </Density>\n",
   "</svFSIFile>\n"]

/- ---------------------------------------------------------------------
Cursor-discipline refinement: the parse loop with its shared
`lines_parsed` counters behaves exactly like the explicit-cursor parser.
--------------------------------------------------------------------- -/

/-- Unfolding of `countContent` on a cons cell. -/
lemma countContent_cons (l : String) (t : List String) :
    countContent (l :: t) =
      countContent t + (if skipLine l then 0 else 1) := by
  simp only [countContent, List.countP_cons]
  cases hs : skipLine l <;> simp [hs]

/-- Unfolding of `countContent` on an append. -/
lemma countContent_append (a b : List String) :
    countContent (a ++ b) = countContent a + countContent b := by
  simp [countContent, List.countP_append]

/-- Catch-up behaviour of the parse loop: when the next `pre.length` lines
of the frame have already been consumed (by a descendant), so that the
frame's own counter exceeds the loop index by exactly the number of content
lines among them, the loop walks over them without creating any node and
arrives at the suffix with its counter equal to the index again.  The
blank/comment lines among them are counted again locally (the branch that
increments only the frame's own counter), which is exactly what keeps the
books balanced. -/
lemma parseLines_skip (pre post : List String) (level : Nat) :
    ∀ (idx ups : Nat) (acc : List DataNode),
    parseLines level (pre ++ post) idx (idx + countContent pre) ups acc =
      parseLines level post (idx + pre.length) (idx + pre.length) ups acc := by
  induction pre with
  | nil =>
    intro idx ups acc
    simp [countContent]
  | cons head t ih =>
    intro idx ups acc
    rw [List.cons_append]
    cases hs : skipLine head with
    | true =>
      have hc : countContent (head :: t) = countContent t := by
        simp [countContent_cons, hs]
      rw [hc]
      have h1 : parseLines level (head :: (t ++ post)) idx
            (idx + countContent t) ups acc =
          parseLines level (t ++ post) (idx + 1) (idx + countContent t + 1)
            ups acc := by
        simp [parseLines, hs]
      rw [h1]
      have h2 : idx + countContent t + 1 = (idx + 1) + countContent t := by
        omega
      rw [h2, ih (idx + 1) ups acc]
      have h3 : idx + 1 + t.length = idx + (head :: t).length := by
        simp [List.length_cons]; omega
      rw [h3]
    | false =>
      have hc : countContent (head :: t) = countContent t + 1 := by
        simp [countContent_cons, hs]
      rw [hc]
      have hlt : ¬ (idx + (countContent t + 1) ≤ idx) := by omega
      have h1 : parseLines level (head :: (t ++ post)) idx
            (idx + (countContent t + 1)) ups acc =
          parseLines level (t ++ post) (idx + 1) (idx + (countContent t + 1))
            ups acc := by
        simp [parseLines, hs, hlt]
      rw [h1]
      have h2 : idx + (countContent t + 1) = (idx + 1) + countContent t := by
        omega
      rw [h2, ih (idx + 1) ups acc]
      have h3 : idx + 1 + t.length = idx + (head :: t).length := by
        simp [List.length_cons]; omega
      rw [h3]

/-- The faithful parse loop, started on a frame whose counter equals its
loop index (in particular a fresh frame, where both are zero), computes
exactly what the explicit-cursor parser computes: the same error, or the
same children appended to the accumulator together with the number of
content lines among the consumed prefix — which is precisely the number of
`update_lines_parsed` events the frame sends to every ancestor. -/
lemma parseLines_eq_cursorParse :
    ∀ (fuel : Nat) (lines : List String), lines.length ≤ fuel →
    ∀ (level idx ups : Nat) (acc : List DataNode),
    parseLines level lines idx idx ups acc =
      match cursorParse fuel level lines with
      | .error e => .error e
      | .ok (cs, n) => .ok (acc ++ cs, ups + countContent (lines.take n)) := by
  intro fuel
  induction fuel with
  | zero =>
    intro lines hlen level idx ups acc
    have h0 : lines = [] := List.length_eq_zero.mp (Nat.le_zero.mp hlen)
    subst h0
    simp [parseLines, cursorParse, countContent]
  | succ f ih =>
    intro lines hlen level idx ups acc
    cases lines with
    | nil => simp [parseLines, cursorParse, countContent]
    | cons l rest =>
      have hr : rest.length ≤ f := by
        simp [List.length_cons] at hlen; omega
      cases hs : skipLine l with
      | true =>
        have h1 : parseLines level (l :: rest) idx idx ups acc =
            parseLines level rest (idx + 1) (idx + 1) ups acc := by
          simp [parseLines, hs]
        rw [h1, ih rest hr level (idx + 1) ups acc]
        cases h : cursorParse f level rest with
        | error e => simp [cursorParse, hs, h]
        | ok p =>
          obtain ⟨cs, n⟩ := p
          simp [cursorParse, hs, h, List.take_succ_cons, countContent_cons]
      | false =>
        cases hc : classifyLine l with
        | fail e =>
          simp [parseLines, cursorParse, hs, hc]
        | blockOpen k v =>
          have h1 : parseLines level (l :: rest) idx idx ups acc =
              match parseLines (level + 1) rest 0 0 0 [] with
              | .error e => .error e
              | .ok (cc, cups) =>
                parseLines level rest (idx + 1) (idx + 1 + cups)
                  (ups + 1 + cups) (acc ++ [mkNode k v (level + 1) cc]) := by
            simp [parseLines, hs, hc]
          rw [h1, ih rest hr (level + 1) 0 0 []]
          cases h2 : cursorParse f (level + 1) rest with
          | error e => simp [cursorParse, hs, hc, h2]
          | ok p1 =>
            obtain ⟨cc, n1⟩ := p1
            simp only [List.nil_append, Nat.zero_add]
            have hskip := parseLines_skip (rest.take n1) (rest.drop n1) level
              (idx + 1) (ups + 1 + countContent (rest.take n1))
              (acc ++ [mkNode k v (level + 1) cc])
            rw [List.take_append_drop] at hskip
            have harg : idx + 1 + countContent (rest.take n1) =
                (idx + 1) + countContent (rest.take n1) := rfl
            rw [harg, hskip]
            have hdlen : (rest.drop n1).length ≤ f := by
              have := List.length_drop n1 rest
              omega
            rw [ih (rest.drop n1) hdlen level
              ((idx + 1) + (rest.take n1).length)
              (ups + 1 + countContent (rest.take n1))
              (acc ++ [mkNode k v (level + 1) cc])]
            cases h3 : cursorParse f level (rest.drop n1) with
            | error e => simp [cursorParse, hs, hc, h2, h3]
            | ok p2 =>
              obtain ⟨cs2, n2⟩ := p2
              have htake : (l :: rest).take (1 + n1 + n2) =
                  l :: rest.take (n1 + n2) := by
                have : 1 + n1 + n2 = (n1 + n2) + 1 := by omega
                rw [this, List.take_succ_cons]
              simp only [cursorParse, hs, hc, h2, h3]
              simp only [Bool.false_eq_true, if_false, htake]
              rw [List.take_add, countContent_cons, countContent_append]
              simp [hs, List.append_assoc]
              omega
        | inlinePair nk nv sk sv =>
          have h1 : parseLines level (l :: rest) idx idx ups acc =
              parseLines level rest (idx + 1) (idx + 1) (ups + 1)
                (acc ++ [mkNode nk nv (level + 1)
                  [mkNode sk sv (level + 2) []]]) := by
            simp [parseLines, hs, hc]
          rw [h1, ih rest hr level (idx + 1) (ups + 1) _]
          cases h2 : cursorParse f level rest with
          | error e => simp [cursorParse, hs, hc, h2]
          | ok p =>
            obtain ⟨cs, n⟩ := p
            simp [cursorParse, hs, hc, h2, List.take_succ_cons,
              countContent_cons, List.append_assoc]
            omega
        | blockClose =>
          have htake : (l :: rest).take 1 = [l] := by
            simp
          simp [parseLines, cursorParse, hs, hc, htake, countContent_cons,
            countContent]
        | leafKV k v =>
          have h1 : parseLines level (l :: rest) idx idx ups acc =
              parseLines level rest (idx + 1) (idx + 1) (ups + 1)
                (acc ++ [mkNode k v (level + 1) []]) := by
            simp [parseLines, hs, hc]
          rw [h1, ih rest hr level (idx + 1) (ups + 1) _]
          cases h2 : cursorParse f level rest with
          | error e => simp [cursorParse, hs, hc, h2]
          | ok p =>
            obtain ⟨cs, n⟩ := p
            simp [cursorParse, hs, hc, h2, List.take_succ_cons,
              countContent_cons, List.append_assoc]
            omega

/-- The whole-document corollary: parsing from the synthesized root equals
the explicit-cursor parse of the document (fuel `lines.length` is enough,
because each consumed line costs one unit). -/
lemma parseRoot_eq_cursor (lines : List String) :
    parseRoot lines =
      match cursorParse lines.length 0 lines with
      | .error e => .error e
      | .ok (cs, _) => .ok (DataNode.mk "svFSIFile" "0.1" 0 true cs) := by
  have h := parseLines_eq_cursorParse lines.length lines (Nat.le_refl _) 0 0 0 []
  have hk : normKey "svFSIFile" = "svFSIFile" := by decide
  have hv : normValue "0.1" = "0.1" := by decide
  unfold parseRoot
  rw [h]
  cases hc : cursorParse lines.length 0 lines with
  | error e => simp
  | ok p =>
    obtain ⟨cs, n⟩ := p
    simp [hk, hv]

/- ---------------------------------------------------------------------
Helper lemmas about the serializer child loop and about malformed lines.
--------------------------------------------------------------------- -/

/-- A line with no colon has no colon-space occurrence, so `split(': ', 1)`
leaves it in one piece and the tuple unpacking raises `ValueError`. -/
lemma splitColonSpace_none_of_no_colon :
    ∀ (l : List Char), l.contains ':' = false → splitColonSpace l = none := by
  intro l
  induction l with
  | nil => intro _; rfl
  | cons c t ih =>
    intro h
    have hc : (':' == c) = false ∧ t.contains ':' = false := by
      simpa [List.contains_cons] using h
    cases t with
    | nil => rfl
    | cons c2 t2 =>
      have hne : c ≠ ':' := by
        intro he
        subst he
        simp at hc
      have hcc : (c == ':') = false := by simp [hne]
      have hcond : (c == ':' && c2 == ' ') = false := by simp [hcc]
      have ht := ih hc.2
      simp [splitColonSpace, hcond, ht]

/-- Once the wrapper-closing flag has been cleared, the child loop is a
plain concatenation of the children's rendered lines. -/
lemma emitChildren_flag_false (r : Bool) (ps : List (Bool × List String)) :
    emitChildren r false ps = (ps.map Prod.snd).flatten := by
  induction ps with
  | nil => simp [emitChildren]
  | cons p t ih =>
    obtain ⟨b, xml⟩ := p
    simp [emitChildren, ih]

/-- Children without children of their own never trigger the wrapper close:
the loop emits their lines and keeps the flag set. -/
lemma emitChildren_skips_leaves (r : Bool) :
    ∀ (xs ps : List (Bool × List String)), (∀ p ∈ xs, p.1 = false) →
    emitChildren r true (xs ++ ps) =
      (xs.map Prod.snd).flatten ++ emitChildren r true ps := by
  intro xs
  induction xs with
  | nil => intro ps _; simp
  | cons x t ih =>
    intro ps h
    obtain ⟨b, xml⟩ := x
    have hb : b = false := h (b, xml) (List.mem_cons_self _ _)
    subst hb
    have ht : ∀ p ∈ t, p.1 = false := fun p hp => h p (List.mem_cons_of_mem _ hp)
    simp [emitChildren, ih ps ht, List.append_assoc]

/-- A childless node renders as its single inline line (for any fuel left
after one step). -/
lemma formatForXml_leaf (fuel : Nat) (x : DataNode) (h : x.children = []) :
    formatForXml (fuel + 1) x = [inlineTagFor x.key x.value x.level] := by
  cases x with
  | mk k v lvl r cs =>
    simp only [DataNode.children] at h
    subst h
    simp [formatForXml, DataNode.key, DataNode.value, DataNode.level]

/-- Flattening singleton renderings is just mapping. -/
lemma flatten_map_singleton {α β : Type} (g : α → β) (xs : List α) :
    (xs.map (fun x => [g x])).flatten = xs.map g := by
  induction xs with
  | nil => simp
  | cons x t ih => simp [ih]

/- ---------------------------------------------------------------------
Claim theorems.
--------------------------------------------------------------------- -/

/-- C1.  Whenever a node at any depth consumes a content line, every
ancestor's `lines_parsed` counter receives the same increment (this is the
`ups` component that `parseLines` returns and the caller adds to its own
counter, and blank/comment lines are re-counted locally by each frame as
its own loop passes them), so that a parent resumes parsing exactly after
the last line consumed by any descendant and no already-processed line
becomes a second node: the whole parse equals the explicit-cursor parse,
in which each frame consumes a prefix of its lines and its caller resumes
at exactly the first line after that prefix. -/
theorem claim1_cursor_discipline (lines : List String) :
    parseRoot lines =
      match cursorParse lines.length 0 lines with
      | .error e => .error e
      | .ok (cs, _) => .ok (DataNode.mk "svFSIFile" "0.1" 0 true cs) :=
  parseRoot_eq_cursor lines

/-- C2 counterexample.  The claim asserts that every `key: value` line
ending in an opening brace yields a container child for every value
string, including values with interior spaces and the empty value; but
`value.rsplit(' ')` has no maxsplit, so a value with an interior space
unpacks into too many pieces and the empty-value line `A: ` + brace into
too few, and parsing dies with `ValueError` in both cases. -/
theorem claim2_counterexample :
    parseRoot ["Add mesh: left atrium \x7b", "\x7d"] = .error errTooMany ∧
    parseRoot ["A: \x7b", "\x7d"] = .error errNotEnough :=
  ⟨rfl, rfl⟩

/-- C2 amended.  For a trimmed line of the form `key: value` + space +
opening brace as last character, whose part after `key: ` splits on spaces
into exactly two pieces (so the value holds no interior space), the parser
creates exactly one container child at level 1 under the root carrying the
normalized key and value, recursively parses the following lines as that
child's body, and the root resumes exactly after the lines the child
consumed. -/
theorem claim2_amended (l : String) (rest : List String)
    (k vb v w : List Char)
    (h1 : skipLine l = false)
    (hb : (pyStrip l.data).contains obrace = true)
    (hlast : lastIsOpenBrace (pyStrip l.data) = true)
    (hsplit : splitColonSpace (pyStrip l.data) = some (k, vb))
    (hr : splitSpaces vb = [v, w]) :
    parseRoot (l :: rest) =
      match cursorParse rest.length 1 rest with
      | .error e => .error e
      | .ok (cc, n1) =>
        match cursorParse rest.length 0 (rest.drop n1) with
        | .error e => .error e
        | .ok (cs, _) =>
          .ok (.mk "svFSIFile" "0.1" 0 true (mkNode k v 1 cc :: cs)) := by
  have hclass : classifyLine l = .blockOpen k v := by
    simp only [classifyLine]
    rw [hb, hlast, hsplit]
    simp [hr]
  rw [parseRoot_eq_cursor]
  simp only [List.length_cons, cursorParse, h1, hclass, Bool.false_eq_true,
    if_false]
  cases h2 : cursorParse rest.length 1 rest with
  | error e => simp [h2]
  | ok p1 =>
    obtain ⟨cc, n1⟩ := p1
    simp only [h2]
    cases h3 : cursorParse rest.length 0 (rest.drop n1) with
    | error e => simp [h3]
    | ok p2 =>
      obtain ⟨cs, n2⟩ := p2
      simp [h3]

/-- C2 witness: a concrete single-token block line, parsed through the
amended statement and evaluated to the resulting tree. -/
theorem claim2_amended_witness :
    parseRoot ["Add equation: FSI \x7b", "Coupled: true", "\x7d"] =
      .ok (.mk "svFSIFile" "0.1" 0 true
        [.mk "Add_equation" "FSI" 1 false [.mk "Coupled" "1" 2 false []]]) := by
  rw [claim2_amended "Add equation: FSI \x7b" ["Coupled: true", "\x7d"]
    "Add equation".data "FSI \x7b".data "FSI".data "\x7b".data
    rfl rfl rfl rfl rfl]
  rfl

/-- C3 counterexample.  On the exact claimed shape `A: x` + brace +
` B: y ` + brace the parser does build one container child with one
grandchild, but the grandchild's key is `_B` (the space kept by
`split(' ' + brace)` turns into an underscore) and its value is `y ` with a
trailing space, not the claimed key `B` and value `y`. -/
theorem claim3_counterexample :
    parseRoot ["A: x \x7b B: y \x7d"] =
      .ok (.mk "svFSIFile" "0.1" 0 true
        [.mk "A" "x" 1 false [.mk "_B" "y " 2 false []]]) ∧
    ("_B" : String) ≠ "B" ∧ ("y " : String) ≠ "y" :=
  ⟨rfl, by decide, by decide⟩

/-- C3 amended.  A single-line nested block (opening brace present but not
last, splitting on space-brace into exactly two pieces, each of which has
a colon-space) yields exactly one container child at `level+1` with
exactly one grandchild leaf at `level+2` and no recursion — the frame
simply continues with the next line.  The grandchild's key and value are
the split pieces with their surrounding spaces kept (so a space before the
subkey becomes a leading underscore) and with every closing brace removed
from the value. -/
theorem claim3_amended (l : String) (rest : List String)
    (np sp nk nv sk sv : List Char) (level idx lp ups : Nat)
    (acc : List DataNode)
    (hle : lp ≤ idx)
    (h1 : skipLine l = false)
    (hb : (pyStrip l.data).contains obrace = true)
    (hlast : lastIsOpenBrace (pyStrip l.data) = false)
    (hsb : splitSpaceBrace (pyStrip l.data) = [np, sp])
    (hn : splitColonSpace np = some (nk, nv))
    (hs : splitColonSpace sp = some (sk, sv)) :
    parseLines level (l :: rest) idx lp ups acc =
      parseLines level rest (idx + 1) (lp + 1) (ups + 1)
        (acc ++ [mkNode nk nv (level + 1)
          [mkNode sk (sv.filter (fun c => !(c == cbrace))) (level + 2) []]]) := by
  have hclass : classifyLine l =
      .inlinePair nk nv sk (sv.filter (fun c => !(c == cbrace))) := by
    simp only [classifyLine]
    rw [hb, hlast, hsb]
    simp [hn, hs]
  simp [parseLines, h1, hle, hclass]

/-- C3 witness: the inline line followed by another line; the frame
continues after the inline node without recursing into it. -/
theorem claim3_amended_witness :
    parseLines 0 ["A: x \x7b B: y \x7d", "next: 1"] 0 0 0 [] =
      .ok ([.mk "A" "x" 1 false [.mk "_B" "y " 2 false []],
            .mk "next" "1" 1 false []], 2) := by
  rw [claim3_amended "A: x \x7b B: y \x7d" ["next: 1"]
    "A: x".data " B: y \x7d".data "A".data "x".data " B".data "y \x7d".data
    0 0 0 0 [] (Nat.le_refl 0) rfl rfl rfl rfl rfl rfl]
  rfl

/-- C4 counterexample.  The serializer consults the attribute table only
for nodes with children: the childless `LS` node parsed from
`LS type: GMRES` renders as the inline text line `<LS> GMRES </LS>`, and
the attribute rendering the claim asserts appears nowhere in the output. -/
theorem claim4_counterexample :
    convert ["LS type: GMRES"] = .ok lsLeafOut ∧
    "<LS> GMRES </LS>\n" ∈ lsLeafOut ∧
    ("<LS type=\"GMRES\" ></LS>" : String) ∉ lsLeafOut ∧
    ("<LS type=\"GMRES\" ></LS>\n" : String) ∉ lsLeafOut :=
  ⟨rfl, by decide, by decide, by decide⟩

/-- C4 amended.  For a key in the attribute table, the opening tag carries
the value as `key="value"` only when the node has children (children are
then emitted nested inside, before the closing tag); a childless node with
such a key renders as a single inline-text line instead. -/
theorem claim4_amended (fuel : Nat) (key value : String) (lvl : Nat)
    (isRoot : Bool) (children : List DataNode) (a : String)
    (ha : keyToAttr key = some a) :
    (children ≠ [] →
      formatForXml (fuel + 1) (.mk key value lvl isRoot children) =
        (if lvl = 1 then ["\n"] else [])
        ++ [tabs (lvl - 1) ++ "<" ++ key ++ " " ++ a ++ "=\"" ++ value
            ++ "\" >\n"]
        ++ (if isRoot then ["\n", "<GeneralSimulationParameters>\n"] else [])
        ++ emitChildren isRoot true
            (children.map (fun c => (hasChildren c, formatForXml fuel c)))
        ++ [tabs (lvl - 1) ++ "</" ++ key ++ ">\n"]) ∧
    formatForXml (fuel + 1) (.mk key value lvl isRoot []) =
      [tabs (lvl - 1) ++ "<" ++ key ++ "> " ++ value ++ " </" ++ key
        ++ ">\n"] := by
  constructor
  · intro hne
    have hlen : 0 < children.length := List.length_pos.mpr hne
    simp [formatForXml, hlen, openTagFor, ha, closeTagFor]
  · simp [formatForXml, inlineTagFor]

/-- C4 witness: the `LS` key with children takes the attribute form, and
childless takes the inline form. -/
theorem claim4_amended_witness :
    formatForXml 2 (.mk "LS" "GMRES" 1 false
        [.mk "Max_iterations" "10" 2 false []]) =
      ["\n", "<LS type=\"GMRES\" >\n",
       "\t<Max_iterations> 10 </Max_iterations>\n", "</LS>\n"] ∧
    formatForXml 2 (.mk "LS" "GMRES" 1 false []) = ["<LS> GMRES </LS>\n"] := by
  have h := claim4_amended 1 "LS" "GMRES" 1 false
    [.mk "Max_iterations" "10" 2 false []] "type" rfl
  exact ⟨(h.1 (by simp)).trans rfl, h.2.trans rfl⟩

/-- C5 counterexample.  When the root has no child with children, the
wrapper `<GeneralSimulationParameters>` is opened but its closing tag is
never emitted — not emitted exactly once as claimed. -/
theorem claim5_counterexample :
    convert ["Density: 1.0"] = .ok densityLeafOut ∧
    "<GeneralSimulationParameters>\n" ∈ densityLeafOut ∧
    ("</GeneralSimulationParameters>\n" : String) ∉ densityLeafOut :=
  ⟨rfl, by decide, by decide⟩

/-- C5 amended.  For a root with at least one container child: the wrapper
opens right after the root's opening tag (separated by one blank line);
the root's leaf children before the first container child are emitted
inside the wrapper in document order; the wrapper close is emitted by the
loop exactly once, at the first container child (whose own rendering may
begin with a blank line); and all later children — leaves included — are
emitted outside the wrapper, as the plain concatenation of their
renderings.  If the root has no container child this decomposition does
not apply and the close is never emitted (see the counterexample). -/
theorem claim5_amended (fuel : Nat) (v : String) (lvs : List DataNode)
    (c : DataNode) (rest : List DataNode)
    (hlvs : ∀ x ∈ lvs, x.children = [])
    (hc : c.children ≠ []) :
    formatForXml (fuel + 2) (.mk "svFSIFile" v 0 true (lvs ++ c :: rest)) =
      ["<svFSIFile version=\"" ++ v ++ "\" >\n", "\n",
       "<GeneralSimulationParameters>\n"]
      ++ lvs.map (fun x => inlineTagFor x.key x.value x.level)
      ++ ["</GeneralSimulationParameters>\n"]
      ++ formatForXml (fuel + 1) c
      ++ (rest.map (fun x => formatForXml (fuel + 1) x)).flatten
      ++ ["</svFSIFile>\n"] := by
  have hpos : 0 < (lvs ++ c :: rest).length := by
    simp
  have hcl : hasChildren c = true := by
    simp [hasChildren, List.length_pos.mpr hc]
  have hmap : (lvs ++ c :: rest).map
        (fun x => (hasChildren x, formatForXml (fuel + 1) x)) =
      lvs.map (fun x => (hasChildren x, formatForXml (fuel + 1) x))
      ++ (hasChildren c, formatForXml (fuel + 1) c)
        :: rest.map (fun x => (hasChildren x, formatForXml (fuel + 1) x)) := by
    simp
  have hleaf : ∀ p ∈ lvs.map
      (fun x => (hasChildren x, formatForXml (fuel + 1) x)),
      p.1 = false := by
    intro p hp
    rw [List.mem_map] at hp
    obtain ⟨x, hx, hpx⟩ := hp
    have hx0 := hlvs x hx
    subst hpx
    simp [hasChildren, hx0]
  have hopen : openTagFor "svFSIFile" v 0 =
      "<svFSIFile version=\"" ++ v ++ "\" >\n" := rfl
  have hclose : closeTagFor "svFSIFile" 0 = "</svFSIFile>\n" := rfl
  have hlvsmap : lvs.map (fun x => formatForXml (fuel + 1) x) =
      lvs.map (fun x => [inlineTagFor x.key x.value x.level]) := by
    refine List.map_congr_left ?_
    intro x hx
    exact formatForXml_leaf fuel x (hlvs x hx)
  calc formatForXml (fuel + 2) (.mk "svFSIFile" v 0 true (lvs ++ c :: rest))
      = [openTagFor "svFSIFile" v 0]
        ++ ["\n", "<GeneralSimulationParameters>\n"]
        ++ emitChildren true true
            ((lvs ++ c :: rest).map
              (fun x => (hasChildren x, formatForXml (fuel + 1) x)))
        ++ [closeTagFor "svFSIFile" 0] := by
        simp [formatForXml, hpos]
    _ = ["<svFSIFile version=\"" ++ v ++ "\" >\n", "\n",
         "<GeneralSimulationParameters>\n"]
        ++ lvs.map (fun x => inlineTagFor x.key x.value x.level)
        ++ ["</GeneralSimulationParameters>\n"]
        ++ formatForXml (fuel + 1) c
        ++ (rest.map (fun x => formatForXml (fuel + 1) x)).flatten
        ++ ["</svFSIFile>\n"] := by
        rw [hmap, emitChildren_skips_leaves true _ _ hleaf]
        rw [show emitChildren true true
            ((hasChildren c, formatForXml (fuel + 1) c)
              :: rest.map (fun x => (hasChildren x,
                formatForXml (fuel + 1) x))) =
            "</GeneralSimulationParameters>\n"
              :: (formatForXml (fuel + 1) c
                ++ emitChildren true false
                  (rest.map (fun x => (hasChildren x,
                    formatForXml (fuel + 1) x)))) from by
          simp [emitChildren, hcl]]
        rw [emitChildren_flag_false]
        rw [List.map_map, List.map_map]
        have hsnd1 : lvs.map
            (Prod.snd ∘ fun x => (hasChildren x, formatForXml (fuel + 1) x)) =
            lvs.map (fun x => formatForXml (fuel + 1) x) := by
          simp [Function.comp]
        have hsnd2 : rest.map
            (Prod.snd ∘ fun x => (hasChildren x, formatForXml (fuel + 1) x)) =
            rest.map (fun x => formatForXml (fuel + 1) x) := by
          simp [Function.comp]
        rw [hsnd1, hsnd2, hlvsmap, flatten_map_singleton, hopen, hclose]
        simp [List.append_assoc]

/-- C5 witness: one leading leaf inside the wrapper, a container child
closing it, and a trailing leaf emitted outside the wrapper. -/
theorem claim5_amended_witness :
    formatForXml 3 (.mk "svFSIFile" "0.1" 0 true
      ([.mk "Density" "1.0" 1 false []]
        ++ (.mk "LS" "GMRES" 1 false [.mk "Max_iterations" "10" 2 false []])
        :: [.mk "Tail" "5" 1 false []])) =
      ["<svFSIFile version=\"0.1\" >\n", "\n",
       "<GeneralSimulationParameters>\n",
       "<Density> 1.0 </Density>\n",
       "</GeneralSimulationParameters>\n",
       "\n", "<LS type=\"GMRES\" >\n",
       "\t<Max_iterations> 10 </Max_iterations>\n", "</LS>\n",
       "<Tail> 5 </Tail>\n",
       "</svFSIFile>\n"] := by
  have h := claim5_amended 1 "0.1" [.mk "Density" "1.0" 1 false []]
    (.mk "LS" "GMRES" 1 false [.mk "Max_iterations" "10" 2 false []])
    [.mk "Tail" "5" 1 false []]
    (by
      intro x hx
      rw [List.mem_singleton] at hx
      subst hx
      rfl)
    (by simp [DataNode.children])
  exact h.trans (by decide)

/-- C6.  A fresh trimmed line with no brace whose colon-space split
succeeds makes the frame append exactly one leaf child at `level+1`, whose
key is the split key with the hard-coded `LS type → LS` rename checked
first and otherwise every space turned into an underscore, and whose value
is the boolean-normalized split value. -/
theorem claim6_leaf_line (l : String) (rest : List String) (k v : List Char)
    (level idx lp ups : Nat) (acc : List DataNode)
    (hle : lp ≤ idx)
    (h1 : skipLine l = false)
    (hob : (pyStrip l.data).contains obrace = false)
    (hcb : (pyStrip l.data).contains cbrace = false)
    (hsplit : splitColonSpace (pyStrip l.data) = some (k, v)) :
    parseLines level (l :: rest) idx lp ups acc =
      parseLines level rest (idx + 1) (lp + 1) (ups + 1)
        (acc ++ [DataNode.mk
          (if String.mk k = "LS type" then "LS"
           else String.mk (k.map (fun c => if c == ' ' then '_' else c)))
          (if String.mk v = "true" ∨ String.mk v = "t" then "1"
           else if String.mk v = "false" ∨ String.mk v = "f" then "0"
           else String.mk v)
          (level + 1) false []]) := by
  have hclass : classifyLine l = .leafKV k v := by
    simp only [classifyLine]
    rw [hob, hcb, hsplit]
    simp
  simp [parseLines, h1, hle, hclass, mkNode, normKey, normValue]

/-- C6 witness: the rename and the boolean normalization both fire on
`LS type: t`. -/
theorem claim6_witness :
    parseLines 0 ["LS type: t"] 0 0 0 [] =
      .ok ([.mk "LS" "1" 1 false []], 1) := by
  rw [claim6_leaf_line "LS type: t" [] "LS type".data "t".data 0 0 0 0 []
    (Nat.le_refl 0) rfl rfl rfl rfl]
  rfl

/-- C7.  Node construction stores `1` for the values `true` and `t`, `0`
for `false` and `f`, and any other value string unchanged. -/
theorem claim7_bool_normalization (k v : List Char) (lvl : Nat)
    (cs : List DataNode) :
    ((String.mk v = "true" ∨ String.mk v = "t") →
      (mkNode k v lvl cs).value = "1") ∧
    ((String.mk v = "false" ∨ String.mk v = "f") →
      (mkNode k v lvl cs).value = "0") ∧
    (String.mk v ∉ (["true", "t", "false", "f"] : List String) →
      (mkNode k v lvl cs).value = String.mk v) := by
  refine ⟨?_, ?_, ?_⟩
  · intro h
    simp [mkNode, DataNode.value, normValue, h]
  · intro h
    have h1 : ¬ (String.mk v = "true" ∨ String.mk v = "t") := by
      rcases h with h | h <;> rw [h] <;> decide
    simp [mkNode, DataNode.value, normValue, h1, h]
  · intro h
    simp only [List.mem_cons, List.mem_singleton, not_or] at h
    obtain ⟨e1, e2, e3, e4⟩ := h
    simp [mkNode, DataNode.value, normValue, e1, e2, e3, e4]

/-- C7 witness: both true-forms, both false-forms and a pass-through value
evaluated through the theorem. -/
theorem claim7_witness :
    (mkNode "Coupled".data "t".data 1 []).value = "1" ∧
    (mkNode "Coupled".data "f".data 1 []).value = "0" ∧
    (mkNode "LS".data "GMRES".data 1 []).value = "GMRES" :=
  ⟨(claim7_bool_normalization "Coupled".data "t".data 1 []).1 (Or.inr rfl),
   (claim7_bool_normalization "Coupled".data "f".data 1 []).2.1 (Or.inr rfl),
   (claim7_bool_normalization "LS".data "GMRES".data 1 []).2.2 (by decide)⟩

/-- C8.  The parse-then-serialize pipeline is a function of the input line
list alone: identical inputs give byte-identical outputs. -/
theorem claim8_deterministic (lines1 lines2 : List String)
    (h : lines1 = lines2) :
    convert lines1 = convert lines2 := by
  rw [h]

/-- C8 witness at a concrete input. -/
theorem claim8_witness :
    convert ["Density: 1.0"] = convert ["Density: 1.0"] :=
  claim8_deterministic ["Density: 1.0"] ["Density: 1.0"] rfl

/-- C9 counterexample.  Two different malformed lines, at different
positions of two different documents, produce the very same error value —
the generic CPython unpacking message — so the surfaced condition
identifies neither the offending line's content nor its position. -/
theorem claim9_counterexample :
    parseRoot ["abc"] = .error errNotEnough ∧
    parseRoot ["Density: 1.0", "qqq"] = .error errNotEnough ∧
    parseRoot ["abc"] = parseRoot ["Density: 1.0", "qqq"] :=
  ⟨rfl, rfl, rfl⟩

/-- C9 amended.  A fresh non-blank non-comment line containing neither a
colon nor a brace makes parsing fail fatally — but with the generic
`ValueError` of tuple unpacking, which carries no information about the
line or its position. -/
theorem claim9_amended (l : String) (rest : List String)
    (level idx lp ups : Nat) (acc : List DataNode)
    (hle : lp ≤ idx)
    (h1 : skipLine l = false)
    (hcolon : (pyStrip l.data).contains ':' = false)
    (hob : (pyStrip l.data).contains obrace = false)
    (hcb : (pyStrip l.data).contains cbrace = false) :
    parseLines level (l :: rest) idx lp ups acc = .error errNotEnough := by
  have hnone := splitColonSpace_none_of_no_colon _ hcolon
  have hclass : classifyLine l = .fail errNotEnough := by
    simp only [classifyLine]
    rw [hob, hcb, hnone]
    simp
  simp [parseLines, h1, hle, hclass]

/-- C9 witness: a plain word is a fatal malformed line. -/
theorem claim9_amended_witness :
    parseLines 0 ["zzz", "a: 1"] 0 0 0 [] = .error errNotEnough :=
  claim9_amended "zzz" ["a: 1"] 0 0 0 0 [] (Nat.le_refl 0) rfl rfl rfl rfl

/-- C10.  A fresh non-blank non-comment line containing a closing brace
and no opening brace ends the current frame immediately: the frame returns
its children unchanged (no node is made from the line, whatever else it
contains) after counting the line, and the remaining lines are left to the
parent. -/
theorem claim10_block_close (l : String) (rest : List String)
    (level idx lp ups : Nat) (acc : List DataNode)
    (hle : lp ≤ idx)
    (h1 : skipLine l = false)
    (hob : (pyStrip l.data).contains obrace = false)
    (hcb : (pyStrip l.data).contains cbrace = true) :
    parseLines level (l :: rest) idx lp ups acc = .ok (acc, ups + 1) := by
  have hclass : classifyLine l = .blockClose := by
    simp only [classifyLine]
    rw [hob, hcb]
    simp
  simp [parseLines, h1, hle, hclass]

/-- C10 witness: `key: val` + closing brace closes the block instead of
producing a leaf, and the following line is left unread by this frame. -/
theorem claim10_witness :
    parseLines 0 ["key: val\x7d", "ignored: 1"] 0 0 0 [] = .ok ([], 1) :=
  claim10_block_close "key: val\x7d" ["ignored: 1"] 0 0 0 0 []
    (Nat.le_refl 0) rfl rfl rfl

end SolverInp
